import Mathlib

/-!
# Verification of `STSTokenManager`

A shallow embedding of `src/STSTokenManager.py`, a credential lifecycle
manager that retrieves temporary cloud credentials from an instance metadata
service, caches them in a JSON file, and refreshes them before expiry.

Modelling conventions:

* JSON values (as produced/consumed by Python's `json` module) are the
  inductive `Json`; numbers are restricted to integers, which suffices for
  the data this program handles.
* The filesystem at the single cache path is `FileState`; `json.load` on a
  readable file either fails (`invalidJson`) or yields the parsed value
  (`content v`).
* The metadata HTTP endpoint is an oracle `MetadataService` giving each of
  the three requests' outcomes (`none` models any `requests` exception,
  including timeouts and non-success statuses surfaced by
  `raise_for_status`); the calls actually issued are recorded in a
  `List MetaCall` trace.
* Python exceptions that escape a function are `Except` errors; exceptions
  swallowed by a `try/except` block are handled in-line as in the source.
* `datetime.now(timezone.utc).timestamp()` is an integer parameter `now`
  (seconds since the Unix epoch).
-/

/-- A JSON value, as handled by Python's `json` module (numbers restricted
to integers, which is all this program ever stores). -/
inductive Json where
  | null
  | bool (b : Bool)
  | num (n : Int)
  | str (s : String)
  | arr (elems : List Json)
  | obj (fields : List (String × Json))

/-- Python `d[k]` on a parsed JSON value: a lookup succeeds only on an
object that has the key; on anything else Python raises (`KeyError` /
`TypeError`), modelled as `none`. -/
def Json.lookup : Json → String → Option Json
  | .obj fields, k => fields.lookup k
  | _, _ => none

/-- Python truthiness of a JSON value, as used by `if not credentials:`. -/
def Json.isTruthy : Json → Bool
  | .null => false
  | .bool b => b
  | .num n => n != 0
  | .str s => !s.isEmpty
  | .arr elems => !elems.isEmpty
  | .obj fields => !fields.isEmpty

/-- The empty record: Python's `{}`. -/
def emptyRecord : Json := .obj []

/-! ## Timestamp parsing

`_are_credentials_valid` parses the `Expiration` string with
`datetime.strptime(s, "%Y-%m-%dT%H:%M:%SZ")` and interprets it as UTC.
We embed `strptime` with that fixed format, including its width
flexibility: `%Y` matches exactly four digits, while `%m`, `%d`, `%H`,
`%M`, `%S` each match one or two digits in their respective ranges (a run
of three or more digits before a literal separator never matches).
`datetime` construction then enforces year ≥ 1, a day valid for the month
(with leap years), and seconds ≤ 59. `.timestamp()` of the resulting UTC
datetime is its signed count of seconds since 1970-01-01T00:00:00Z. -/

/-- Numeric value of a run of ASCII digits. -/
def digitsToNat (cs : List Char) : Nat :=
  cs.foldl (fun a c => a * 10 + (c.toNat - 48)) 0

/-- Gregorian leap year. -/
def isLeapYear (y : Nat) : Bool :=
  (y % 4 == 0 && y % 100 != 0) || (y % 400 == 0)

/-- Days in a month of a given year. -/
def daysInMonth (y m : Nat) : Nat :=
  if m = 2 then (if isLeapYear y then 29 else 28)
  else if m = 4 ∨ m = 6 ∨ m = 9 ∨ m = 11 then 30
  else 31

/-- Days in the months of year `y` strictly before month `m`. -/
def daysBeforeMonth (y m : Nat) : Nat :=
  (List.range m).foldl (fun a i => if 1 ≤ i then a + daysInMonth y i else a) 0

/-- Days from 0001-01-01 to the first day of year `y` (proleptic
Gregorian). -/
def daysBeforeYear (y : Nat) : Nat :=
  365 * (y - 1) + (y - 1) / 4 - (y - 1) / 100 + (y - 1) / 400

/-- Seconds since 1970-01-01T00:00:00Z of a UTC civil datetime.
`daysBeforeYear 1970 = 719162`. -/
def toEpochSeconds (y mo d h mi s : Nat) : Int :=
  ((daysBeforeYear y + daysBeforeMonth y mo + (d - 1) : Int) - 719162) * 86400
    + h * 3600 + mi * 60 + s

/-- One strptime numeric field of one or two digits followed by a literal
separator: splits the input at its leading digit run and returns the run's
value, failing when the run is empty or longer than two digits. -/
def takeField2 (cs : List Char) : Option (Nat × List Char) :=
  let run := cs.takeWhile Char.isDigit
  let rest := cs.dropWhile Char.isDigit
  if run.length = 1 ∨ run.length = 2 then some (digitsToNat run, rest) else none

/-- `datetime.strptime(s, "%Y-%m-%dT%H:%M:%SZ").replace(tzinfo=timezone.utc)
.timestamp()`, or `none` when `strptime` or the `datetime` constructor
raises. -/
def parseExpiration (s : String) : Option Int := do
  let cs := s.toList
  let yrun := cs.takeWhile Char.isDigit
  guard (yrun.length = 4)
  let y := digitsToNat yrun
  guard (1 ≤ y)
  let rest ← match cs.dropWhile Char.isDigit with
    | '-' :: r => some r
    | _ => none
  let (mo, rest) ← takeField2 rest
  guard (1 ≤ mo ∧ mo ≤ 12)
  let rest ← match rest with
    | '-' :: r => some r
    | _ => none
  let (d, rest) ← takeField2 rest
  guard (1 ≤ d ∧ d ≤ daysInMonth y mo)
  let rest ← match rest with
    | 'T' :: r => some r
    | _ => none
  let (h, rest) ← takeField2 rest
  guard (h ≤ 23)
  let rest ← match rest with
    | ':' :: r => some r
    | _ => none
  let (mi, rest) ← takeField2 rest
  guard (mi ≤ 59)
  let rest ← match rest with
    | ':' :: r => some r
    | _ => none
  let (sec, rest) ← takeField2 rest
  guard (sec ≤ 59)
  guard (rest = ['Z'])
  pure (toEpochSeconds y mo d h mi sec)

/-- `STSTokenManager._are_credentials_valid`: `False` for a falsy record;
otherwise parse `credentials["Expiration"]` (any exception — missing key,
non-string value, or parse failure — is caught and yields `False`), and
compare `now + 900 < expiration`. -/
def areCredentialsValid (now : Int) (credentials : Json) : Bool :=
  if !credentials.isTruthy then false
  else
    match credentials.lookup "Expiration" with
    | some (.str s) =>
      match parseExpiration s with
      | some exp => decide (now + 900 < exp)
      | none => false
    | _ => false

/-! ## Cache store -/

/-- The state of the cache file at the manager's single configured path.
`content v` is a readable file whose text `json.load` parses to `v`;
`invalidJson` is a readable file on which `json.load` raises;
`unreadable` is an existing file that cannot be opened or read. -/
inductive FileState where
  | missing
  | unreadable
  | invalidJson
  | content (v : Json)

/-- `STSTokenManager._load_cache`: return the parsed file content; every
failure (missing file, read error, JSON decode error) is caught and
degrades to `{}`. Never raises. -/
def loadCache (fs : FileState) : Json :=
  match fs with
  | .content v => v
  | _ => emptyRecord

/-- `STSTokenManager._save_cache`: serialize `credentials` over the cache
file. `writeOk` is whether the filesystem write succeeds; a failure is
caught and logged, leaving the previous state. -/
def saveCache (writeOk : Bool) (credentials : Json) (fs : FileState) : FileState :=
  if writeOk then .content credentials else fs

/-- The manager's mutable state: `self.cache`, the in-memory credential
record. -/
structure ManagerState where
  cache : Json

/-- `STSTokenManager.__init__`: seed the in-memory record from the cache
file. -/
def initManager (fs : FileState) : ManagerState :=
  ⟨loadCache fs⟩

/-! ## Metadata client -/

/-- The metadata endpoint's behaviour during one `get_credentials` call:
the outcome of each of the three requests. `none` models any exception a
step raises (network error, timeout, or a non-success status raised by
`raise_for_status`, and for the credentials request also a JSON decode
error); `some` carries the successful response body. -/
structure MetadataService where
  tokenResp : Option String
  roleResp : String → Option String
  credsResp : String → String → Option Json

/-- One HTTP request issued against the metadata endpoint, with the
request data the source puts in headers and in the URL path. -/
inductive MetaCall where
  | tokenReq
  | roleReq (token : String)
  | credsReq (token : String) (roleName : String)

/-- Which handshake step's exception escaped `get_credentials` (the source
re-raises the underlying exception; this type records the raising step). -/
inductive CredentialFetchError where
  | tokenRequestFailed
  | roleRequestFailed
  | credentialsRequestFailed

/-- `STSTokenManager._get_role_name`: GET the security-credentials listing
with the session token header and return `response.text` — the entire
body, unmodified. -/
def getRoleName (svc : MetadataService) (token : String) : Option String :=
  svc.roleResp token

/-- `STSTokenManager._get_credentials`: GET the named role's credentials
with the same token header and return `response.json()` as-is — no field
of the parsed body is inspected or validated. -/
def getCredentialsStep (svc : MetadataService) (token roleName : String) : Option Json :=
  svc.credsResp token roleName

/-! ## Credential manager -/

/-- `STSTokenManager.get_credentials` as a function of the service oracle,
the clock, and the manager/file state. Returns the call's result, the
manager state and file state after the call, and the trace of metadata
requests issued, in order. -/
def getCredentials (svc : MetadataService) (writeOk : Bool) (now : Int)
    (st : ManagerState) (fs : FileState) :
    Except CredentialFetchError Json × ManagerState × FileState × List MetaCall :=
  if areCredentialsValid now st.cache then
    (.ok st.cache, st, fs, [])
  else
    match svc.tokenResp with
    | none => (.error .tokenRequestFailed, st, fs, [.tokenReq])
    | some token =>
      match getRoleName svc token with
      | none => (.error .roleRequestFailed, st, fs, [.tokenReq, .roleReq token])
      | some roleName =>
        match getCredentialsStep svc token roleName with
        | none =>
          (.error .credentialsRequestFailed, st, fs,
            [.tokenReq, .roleReq token, .credsReq token roleName])
        | some credentials =>
          (.ok credentials, ⟨credentials⟩, saveCache writeOk credentials fs,
            [.tokenReq, .roleReq token, .credsReq token roleName])

/-- An exception escaping `get_environment_vars`: either the propagated
`get_credentials` failure, or a `KeyError` from the dict-literal lookup of
a credential field. -/
inductive EnvError where
  | fetchError (e : CredentialFetchError)
  | keyLookupError (key : String)

/-- `STSTokenManager.get_environment_vars`: call `get_credentials`, then
build the environment mapping by unchecked key lookups, in the dict
literal's evaluation order; a missing key raises `KeyError` (the values
are passed through untouched, whatever they are). -/
def getEnvironmentVars (svc : MetadataService) (writeOk : Bool) (now : Int)
    (st : ManagerState) (fs : FileState) :
    Except EnvError (List (String × Json)) × ManagerState × FileState × List MetaCall :=
  match getCredentials svc writeOk now st fs with
  | (.error e, st', fs', tr) => (.error (.fetchError e), st', fs', tr)
  | (.ok credentials, st', fs', tr) =>
    match credentials.lookup "AccessKeyId" with
    | none => (.error (.keyLookupError "AccessKeyId"), st', fs', tr)
    | some a =>
      match credentials.lookup "SecretAccessKey" with
      | none => (.error (.keyLookupError "SecretAccessKey"), st', fs', tr)
      | some s =>
        match credentials.lookup "Token" with
        | none => (.error (.keyLookupError "Token"), st', fs', tr)
        | some t =>
          (.ok [("AWS_ACCESS_KEY_ID", a), ("AWS_SECRET_ACCESS_KEY", s),
                ("AWS_SESSION_TOKEN", t)], st', fs', tr)

/-! ## Spec-side notions

Definitions following the specification's words, used to compare the
source's behaviour against what the spec claims of it. -/

/-- The first role name of a newline-delimited role listing, per the spec's
description of role discovery. -/
def firstRole (listing : String) : String :=
  ⟨listing.toList.takeWhile (fun c => c ≠ '\n')⟩

/-- A fully populated credential record per the spec's data model: a JSON
object carrying all four string fields. -/
def fullyPopulated (v : Json) : Bool :=
  (match v.lookup "AccessKeyId" with | some (.str _) => true | _ => false) &&
  (match v.lookup "SecretAccessKey" with | some (.str _) => true | _ => false) &&
  (match v.lookup "Token" with | some (.str _) => true | _ => false) &&
  (match v.lookup "Expiration" with | some (.str _) => true | _ => false)

/-- The spec's record invariant: entirely empty, or fully populated. -/
def recordWellFormed (v : Json) : Bool :=
  (match v with | .obj [] => true | _ => false) || fullyPopulated v

/-- `valid structured credential data` per the spec: a JSON object that is
a (possibly empty) credential record. -/
def isCredentialRecord (v : Json) : Bool :=
  recordWellFormed v

/-- The serialized form of a four-field credential record, as
`_save_cache` writes it. -/
def recordToJson (accessKeyId secretAccessKey token expiration : String) : Json :=
  .obj [("AccessKeyId", .str accessKeyId),
        ("SecretAccessKey", .str secretAccessKey),
        ("Token", .str token),
        ("Expiration", .str expiration)]

/-! ## Concrete fixtures -/

/-- A complete four-field record expiring 2099-01-01T00:00:00Z. -/
def credFixture : Json :=
  .obj [("AccessKeyId", .str "AKIA"), ("SecretAccessKey", .str "s3cr3t"),
        ("Token", .str "tok"), ("Expiration", .str "2099-01-01T00:00:00Z")]

/-- A record that parses and is far from expiry but lacks all three key
fields. -/
def credExpOnly : Json := .obj [("Expiration", .str "2099-01-01T00:00:00Z")]

/-- A credentials response missing the `Token` field. -/
def credNoToken : Json :=
  .obj [("AccessKeyId", .str "AKIA"), ("SecretAccessKey", .str "s3cr3t"),
        ("Expiration", .str "2099-01-01T00:00:00Z")]

/-- A metadata service on which every request fails (e.g. a non-cloud
host: every request times out). -/
def svcDown : MetadataService := ⟨none, fun _ => none, fun _ _ => none⟩

/-- A healthy metadata service with a single attached role. -/
def svcUp : MetadataService :=
  ⟨some "sess-token", fun _ => some "my-role", fun _ _ => some credFixture⟩

/-- A healthy metadata service whose credentials response lacks `Token`. -/
def svcNoToken : MetadataService :=
  ⟨some "sess-token", fun _ => some "my-role", fun _ _ => some credNoToken⟩

/-- A healthy metadata service with two attached roles, so the role
listing is newline-delimited. -/
def svcMultiRole : MetadataService :=
  ⟨some "sess-token", fun _ => some "roleA\nroleB", fun _ _ => some credFixture⟩

/-- A healthy metadata service whose credentials response carries only one
of the four fields. -/
def svcPartial : MetadataService :=
  ⟨some "sess-token", fun _ => some "my-role",
    fun _ _ => some (.obj [("AccessKeyId", .str "AKIA")])⟩

/-! ## Helper lemmas -/

/-- A value with a successful key lookup is a non-empty object, hence
truthy. -/
theorem isTruthy_of_lookup_some {c : Json} {k : String} {v : Json}
    (h : c.lookup k = some v) : c.isTruthy = true := by
  cases c with
  | obj fields =>
    cases fields with
    | nil => simp [Json.lookup, List.lookup] at h
    | cons p l => simp [Json.isTruthy]
  | null => simp [Json.lookup] at h
  | bool b => simp [Json.lookup] at h
  | num n => simp [Json.lookup] at h
  | str s => simp [Json.lookup] at h
  | arr elems => simp [Json.lookup] at h

/-- `get_credentials` on a record currently valid: cache hit. -/
theorem getCredentials_of_valid {svc : MetadataService} {writeOk : Bool}
    {now : Int} {st : ManagerState} {fs : FileState}
    (h : areCredentialsValid now st.cache = true) :
    getCredentials svc writeOk now st fs = (.ok st.cache, st, fs, []) := by
  simp [getCredentials, h]

/-- `get_credentials` on an invalid record with all three handshake steps
succeeding. -/
theorem getCredentials_of_invalid_success {svc : MetadataService}
    {writeOk : Bool} {now : Int} {st : ManagerState} {fs : FileState}
    {token roleName : String} {credentials : Json}
    (h : areCredentialsValid now st.cache = false)
    (htok : svc.tokenResp = some token)
    (hrole : svc.roleResp token = some roleName)
    (hcreds : svc.credsResp token roleName = some credentials) :
    getCredentials svc writeOk now st fs =
      (.ok credentials, ⟨credentials⟩, saveCache writeOk credentials fs,
        [.tokenReq, .roleReq token, .credsReq token roleName]) := by
  simp [getCredentials, getRoleName, getCredentialsStep, h, htok, hrole, hcreds]

/-- `get_credentials` on an invalid record when some handshake step
fails: the step's exception escapes and neither state component changes. -/
theorem getCredentials_of_invalid_failure {svc : MetadataService}
    {writeOk : Bool} {now : Int} {st : ManagerState} {fs : FileState}
    (h : areCredentialsValid now st.cache = false)
    (hfail : svc.tokenResp = none
      ∨ (∃ token, svc.tokenResp = some token ∧ svc.roleResp token = none)
      ∨ (∃ token roleName, svc.tokenResp = some token ∧
          svc.roleResp token = some roleName ∧
          svc.credsResp token roleName = none)) :
    (∃ e, (getCredentials svc writeOk now st fs).1 = .error e) ∧
    (getCredentials svc writeOk now st fs).2.1 = st ∧
    (getCredentials svc writeOk now st fs).2.2.1 = fs := by
  rcases hfail with htok | ⟨token, htok, hrole⟩ | ⟨token, roleName, htok, hrole, hcreds⟩
  · refine ⟨⟨.tokenRequestFailed, ?_⟩, ?_, ?_⟩ <;>
      simp [getCredentials, h, htok]
  · refine ⟨⟨.roleRequestFailed, ?_⟩, ?_, ?_⟩ <;>
      simp [getCredentials, getRoleName, h, htok, hrole]
  · refine ⟨⟨.credentialsRequestFailed, ?_⟩, ?_, ?_⟩ <;>
      simp [getCredentials, getRoleName, getCredentialsStep, h, htok, hrole, hcreds]

/-! ## Claims -/

/-- C1: for every credential record, the validity check returns `false`
when the record is empty (falsy), `false` when there is no `Expiration`
string, `false` when the expiration string does not parse as a UTC
timestamp of the form `YYYY-MM-DDTHH:MM:SSZ` (without raising — the
function is total), and otherwise returns `true` if and only if the
current UTC time plus the 900-second buffer is strictly less than the
parsed expiration time. -/
theorem C1_validity (now : Int) (credentials : Json) :
    (credentials.isTruthy = false → areCredentialsValid now credentials = false)
    ∧ ((∀ s, credentials.lookup "Expiration" ≠ some (.str s)) →
        areCredentialsValid now credentials = false)
    ∧ (∀ s, credentials.lookup "Expiration" = some (.str s) →
        parseExpiration s = none → areCredentialsValid now credentials = false)
    ∧ (∀ s exp, credentials.lookup "Expiration" = some (.str s) →
        parseExpiration s = some exp →
        (areCredentialsValid now credentials = true ↔ now + 900 < exp)) := by
  refine ⟨fun h => by simp [areCredentialsValid, h], ?_, ?_, ?_⟩
  · intro h
    unfold areCredentialsValid
    cases hl : credentials.lookup "Expiration" with
    | none => simp [hl]
    | some v =>
      cases v with
      | str s => exact absurd hl (h s)
      | null => simp [hl]
      | bool b => simp [hl]
      | num n => simp [hl]
      | arr elems => simp [hl]
      | obj fields => simp [hl]
  · intro s hl hp
    have htr := isTruthy_of_lookup_some hl
    simp [areCredentialsValid, htr, hl, hp]
  · intro s exp hl hp
    have htr := isTruthy_of_lookup_some hl
    simp [areCredentialsValid, htr, hl, hp]

/-- Witness for C1 at the complete fixture record: at `now = 0` (far from
expiry) the check returns `true`; the expiration parses to epoch second
4070908800. -/
theorem C1_validity_witness :
    parseExpiration "2099-01-01T00:00:00Z" = some 4070908800 ∧
    areCredentialsValid 0 credFixture = true :=
  ⟨by decide,
    ((C1_validity 0 credFixture).2.2.2 "2099-01-01T00:00:00Z" 4070908800
      rfl (by decide)).mpr (by decide)⟩

/-- C2: whenever the currently held record is valid at call time,
`get_credentials` returns that record unchanged and issues no metadata
call, and a second successive call while the record is still valid again
returns it unchanged with zero metadata calls. -/
theorem C2_cache_hit (svc : MetadataService) (writeOk : Bool)
    (now now2 : Int) (st : ManagerState) (fs : FileState)
    (h : areCredentialsValid now st.cache = true)
    (h2 : areCredentialsValid now2 st.cache = true) :
    getCredentials svc writeOk now st fs = (.ok st.cache, st, fs, []) ∧
    ∀ svc2 writeOk2,
      getCredentials svc2 writeOk2 now2
          (getCredentials svc writeOk now st fs).2.1
          (getCredentials svc writeOk now st fs).2.2.1 =
        (.ok st.cache, st, fs, []) := by
  have h1 := @getCredentials_of_valid svc writeOk now st fs h
  refine ⟨h1, fun svc2 writeOk2 => ?_⟩
  rw [h1]
  exact getCredentials_of_valid h2

/-- Witness for C2: the fixture record is valid at both instants, and even
against a fully down metadata service both calls return it with an empty
request trace. -/
theorem C2_cache_hit_witness :
    getCredentials svcDown true 0 ⟨credFixture⟩ .missing =
      (.ok credFixture, ⟨credFixture⟩, .missing, []) :=
  (C2_cache_hit svcDown true 0 1 ⟨credFixture⟩ .missing
    (by decide) (by decide)).1

/-- C3: whenever the currently held record is invalid, `get_credentials`
performs exactly the three-step handshake in order — session-token
request, role discovery with that token, credential fetch with the same
token and the discovered role — and on success persists the fetched
record via the cache store, replaces the in-memory record with it, and
returns a record equal to the final handshake response. -/
theorem C3_handshake (svc : MetadataService) (writeOk : Bool) (now : Int)
    (st : ManagerState) (fs : FileState)
    (h : areCredentialsValid now st.cache = false)
    (token roleName : String) (credentials : Json)
    (htok : svc.tokenResp = some token)
    (hrole : getRoleName svc token = some roleName)
    (hcreds : getCredentialsStep svc token roleName = some credentials) :
    getCredentials svc writeOk now st fs =
      (.ok credentials, ⟨credentials⟩, saveCache writeOk credentials fs,
        [.tokenReq, .roleReq token, .credsReq token roleName]) ∧
    (writeOk = true →
      saveCache writeOk credentials fs = .content credentials) := by
  refine ⟨getCredentials_of_invalid_success h htok hrole hcreds, ?_⟩
  intro hw
  simp [saveCache, hw]

/-- Witness for C3: a past-expiry (here: empty) record and a healthy
service produce the full three-call trace with one shared session token,
and the fixture response is returned, cached in memory, and written to
disk. -/
theorem C3_handshake_witness :
    getCredentials svcUp true 0 ⟨emptyRecord⟩ .missing =
      (.ok credFixture, ⟨credFixture⟩, .content credFixture,
        [.tokenReq, .roleReq "sess-token", .credsReq "sess-token" "my-role"]) := by
  have h := (C3_handshake svcUp true 0 ⟨emptyRecord⟩ .missing (by decide)
    "sess-token" "my-role" credFixture rfl rfl rfl).1
  simpa [saveCache] using h

/-- C4: if any of the three handshake steps fails while no valid cached
record exists, `get_credentials` propagates the failure to the caller
(`CredentialFetchError` names the step whose exception escaped), does not
fall back to stale cached data (its result is an error, not a record),
and leaves both the in-memory record and the cache file unchanged. -/
theorem C4_failure_atomic (svc : MetadataService) (writeOk : Bool)
    (now : Int) (st : ManagerState) (fs : FileState)
    (h : areCredentialsValid now st.cache = false)
    (hfail : svc.tokenResp = none
      ∨ (∃ token, svc.tokenResp = some token ∧ svc.roleResp token = none)
      ∨ (∃ token roleName, svc.tokenResp = some token ∧
          svc.roleResp token = some roleName ∧
          svc.credsResp token roleName = none)) :
    (∃ e, (getCredentials svc writeOk now st fs).1 = .error e) ∧
    (getCredentials svc writeOk now st fs).2.1 = st ∧
    (getCredentials svc writeOk now st fs).2.2.1 = fs :=
  getCredentials_of_invalid_failure h hfail

/-- Witness for C4: a timed-out token request (all requests failing) with
a stale (empty) cache leaves memory and disk untouched and surfaces an
error. -/
theorem C4_failure_atomic_witness :
    (∃ e, (getCredentials svcDown true 0 ⟨emptyRecord⟩ .missing).1 = .error e) ∧
    (getCredentials svcDown true 0 ⟨emptyRecord⟩ .missing).2.1 = ⟨emptyRecord⟩ ∧
    (getCredentials svcDown true 0 ⟨emptyRecord⟩ .missing).2.2.1 = .missing :=
  C4_failure_atomic svcDown true 0 ⟨emptyRecord⟩ .missing (by decide)
    (Or.inl rfl)

/-- Counterexample to C5: the credentials response `credNoToken` lacks the
`Token` field, yet the fetch step succeeds, and `get_credentials` returns
and caches the incomplete record instead of failing. -/
theorem C5_counterexample :
    credNoToken.lookup "Token" = none ∧
    getCredentialsStep svcNoToken "sess-token" "my-role" = some credNoToken ∧
    (getCredentials svcNoToken true 0 ⟨emptyRecord⟩ .missing).1 =
      .ok credNoToken ∧
    (getCredentials svcNoToken true 0 ⟨emptyRecord⟩ .missing).2.2.1 =
      .content credNoToken :=
  ⟨rfl, rfl, rfl, rfl⟩

/-- C5 amended: the credential-fetch step performs no field validation: a
credentials response missing a required field (here `Token`) is returned
successfully by the step, and a `get_credentials` call that reaches it
returns and caches the incomplete record; the absence surfaces only later
as an unchecked key-lookup failure in `get_environment_vars`. -/
theorem C5_no_validation (svc : MetadataService) (writeOk : Bool)
    (now : Int) (st : ManagerState) (fs : FileState)
    (h : areCredentialsValid now st.cache = false)
    (token roleName : String) (credentials : Json)
    (htok : svc.tokenResp = some token)
    (hrole : getRoleName svc token = some roleName)
    (hcreds : getCredentialsStep svc token roleName = some credentials)
    (hmiss : credentials.lookup "Token" = none) :
    (getCredentials svc writeOk now st fs).1 = .ok credentials ∧
    (getCredentials svc writeOk now st fs).2.1.cache = credentials ∧
    (getCredentials svc writeOk now st fs).2.2.1 =
      saveCache writeOk credentials fs ∧
    ∃ key, (getEnvironmentVars svc writeOk now st fs).1 =
      .error (.keyLookupError key) := by
  have hmain := @getCredentials_of_invalid_success svc writeOk now st fs
    token roleName credentials h htok hrole hcreds
  refine ⟨by rw [hmain], by rw [hmain], by rw [hmain], ?_⟩
  unfold getEnvironmentVars
  rw [hmain]
  cases ha : credentials.lookup "AccessKeyId" with
  | none => exact ⟨"AccessKeyId", by simp [ha]⟩
  | some a =>
    cases hs : credentials.lookup "SecretAccessKey" with
    | none => exact ⟨"SecretAccessKey", by simp [ha, hs]⟩
    | some s => exact ⟨"Token", by simp [ha, hs, hmiss]⟩

/-- Witness for C5 amended, at the `svcNoToken` service: the incomplete
record is returned and the later environment-variable lookup fails. -/
theorem C5_no_validation_witness :
    (getCredentials svcNoToken true 0 ⟨emptyRecord⟩ .missing).1 =
      .ok credNoToken ∧
    (getCredentials svcNoToken true 0 ⟨emptyRecord⟩ .missing).2.1.cache =
      credNoToken ∧
    (getCredentials svcNoToken true 0 ⟨emptyRecord⟩ .missing).2.2.1 =
      saveCache true credNoToken .missing ∧
    ∃ key, (getEnvironmentVars svcNoToken true 0 ⟨emptyRecord⟩ .missing).1 =
      .error (.keyLookupError key) :=
  C5_no_validation svcNoToken true 0 ⟨emptyRecord⟩ .missing (by decide)
    "sess-token" "my-role" credNoToken rfl rfl rfl rfl

/-- Counterexample to C6: with two attached roles the listing is
`"roleA\nroleB"`; role discovery returns the whole text, which differs
from the first role name `"roleA"`, and the subsequent credential fetch
uses the whole text as the role. -/
theorem C6_counterexample :
    getRoleName svcMultiRole "sess-token" = some "roleA\nroleB" ∧
    firstRole "roleA\nroleB" = "roleA" ∧
    getRoleName svcMultiRole "sess-token" ≠ some (firstRole "roleA\nroleB") ∧
    (getCredentials svcMultiRole true 0 ⟨emptyRecord⟩ .missing).2.2.2 =
      [.tokenReq, .roleReq "sess-token", .credsReq "sess-token" "roleA\nroleB"] :=
  ⟨rfl, by decide, by decide, rfl⟩

/-- C6 amended: role discovery returns the entire response text of the
role listing, unmodified, and that whole text is used as the role in the
subsequent credential fetch; only when the listing consists of a single
role name (no newline) does this coincide with the first role name. -/
theorem C6_whole_listing (svc : MetadataService) (token listing : String)
    (h : svc.roleResp token = some listing) :
    getRoleName svc token = some listing ∧
    ((∀ c ∈ listing.toList, c ≠ '\n') → firstRole listing = listing) ∧
    (∀ writeOk now st fs credentials,
      areCredentialsValid now (ManagerState.cache st) = false →
      svc.tokenResp = some token →
      getCredentialsStep svc token listing = some credentials →
      (getCredentials svc writeOk now st fs).2.2.2 =
        [.tokenReq, .roleReq token, .credsReq token listing]) := by
  refine ⟨h, ?_, ?_⟩
  · intro hnl
    have h2 : listing.toList.takeWhile (fun c => c ≠ '\n') = listing.toList :=
      List.takeWhile_eq_self_iff.mpr (by simpa using hnl)
    unfold firstRole
    rw [h2]
    rfl
  · intro writeOk now st fs credentials hinv htok hcreds
    rw [getCredentials_of_invalid_success hinv htok h hcreds]

/-- Witness for C6 amended: the single-role service returns the listing
`"my-role"` verbatim, it equals its own first role name, and the
credential fetch is issued for it. -/
theorem C6_whole_listing_witness :
    getRoleName svcUp "sess-token" = some "my-role" ∧
    firstRole "my-role" = "my-role" ∧
    (getCredentials svcUp true 0 ⟨emptyRecord⟩ .missing).2.2.2 =
      [.tokenReq, .roleReq "sess-token", .credsReq "sess-token" "my-role"] := by
  have h := C6_whole_listing svcUp "sess-token" "my-role" rfl
  exact ⟨h.1, h.2.1 (by decide),
    h.2.2 true 0 ⟨emptyRecord⟩ .missing credFixture (by decide) rfl rfl⟩

/-- The stray (non-credential) but syntactically valid JSON content used
against C7. -/
def strayJson : Json := .obj [("foo", .str "bar")]

/-- Counterexample to C7: a cache file whose content is valid JSON but not
valid structured credential data is returned as-is by the load operation,
not replaced by an empty record. -/
theorem C7_counterexample :
    isCredentialRecord strayJson = false ∧
    loadCache (.content strayJson) = strayJson ∧
    loadCache (.content strayJson) ≠ emptyRecord := by
  refine ⟨by decide, rfl, ?_⟩
  intro h
  simp [loadCache, strayJson, emptyRecord] at h

/-- C7 amended: the cache load never raises (it is total), and returns the
empty record exactly when the file is missing, unreadable, or its content
is not valid JSON; content that parses as JSON is returned as-is, whether
or not it is valid structured credential data. -/
theorem C7_load_total (fs : FileState) :
    (fs = .missing ∨ fs = .unreadable ∨ fs = .invalidJson →
      loadCache fs = emptyRecord) ∧
    (∀ v, fs = .content v → loadCache fs = v) := by
  constructor
  · rintro (rfl | rfl | rfl) <;> rfl
  · rintro v rfl
    rfl

/-- Witness for C7 amended: a file with invalid JSON loads as the empty
record. -/
theorem C7_load_total_witness :
    loadCache .invalidJson = emptyRecord :=
  (C7_load_total .invalidJson).1 (Or.inr (Or.inr rfl))

/-- C8: saving a four-string-field record to the cache file and loading it
back from the same path yields the record again, field for field. -/
theorem C8_round_trip (accessKeyId secretAccessKey token expiration : String)
    (fs : FileState) :
    loadCache (saveCache true
        (recordToJson accessKeyId secretAccessKey token expiration) fs) =
      recordToJson accessKeyId secretAccessKey token expiration ∧
    (loadCache (saveCache true
        (recordToJson accessKeyId secretAccessKey token expiration) fs)).lookup
      "AccessKeyId" = some (.str accessKeyId) ∧
    (loadCache (saveCache true
        (recordToJson accessKeyId secretAccessKey token expiration) fs)).lookup
      "SecretAccessKey" = some (.str secretAccessKey) ∧
    (loadCache (saveCache true
        (recordToJson accessKeyId secretAccessKey token expiration) fs)).lookup
      "Token" = some (.str token) ∧
    (loadCache (saveCache true
        (recordToJson accessKeyId secretAccessKey token expiration) fs)).lookup
      "Expiration" = some (.str expiration) :=
  ⟨rfl, rfl, rfl, rfl, rfl⟩

/-- A record carrying only one of the four fields. -/
def partialRecord : Json := .obj [("AccessKeyId", .str "AKIA")]

/-- Counterexample to C9: a cache file holding a one-field record seeds
the manager with a partially populated in-memory record, and a handshake
whose credentials response is partial caches a partially populated record
— both reachable states violate the empty-or-fully-populated invariant. -/
theorem C9_counterexample :
    recordWellFormed (initManager (.content partialRecord)).cache = false ∧
    (getCredentials svcPartial true 0 ⟨emptyRecord⟩ .missing).2.1.cache =
      partialRecord ∧
    recordWellFormed partialRecord = false :=
  ⟨by decide, rfl, by decide⟩

/-- C9 amended: the manager never partially mutates a record — it only
replaces the held record wholesale with a value received from the cache
file or the credentials response. Therefore, provided the cache file's
JSON content and every credentials response are themselves empty or fully
populated, construction and every `get_credentials` call preserve the
invariant, in memory and in what is written to disk; the code does not
itself validate these external inputs. -/
theorem C9_invariant_conditional :
    (∀ fs : FileState,
      (∀ v, fs = .content v → recordWellFormed v = true) →
      recordWellFormed (initManager fs).cache = true) ∧
    (∀ (svc : MetadataService) (writeOk : Bool) (now : Int)
        (st : ManagerState) (fs : FileState),
      recordWellFormed st.cache = true →
      (∀ token roleName credentials,
        svc.credsResp token roleName = some credentials →
        recordWellFormed credentials = true) →
      recordWellFormed (getCredentials svc writeOk now st fs).2.1.cache = true ∧
      (∀ v, (getCredentials svc writeOk now st fs).2.2.1 = .content v →
        fs = .content v ∨ recordWellFormed v = true)) := by
  constructor
  · intro fs h
    cases fs with
    | content v => exact h v rfl
    | missing => decide
    | unreadable => decide
    | invalidJson => decide
  · intro svc writeOk now st fs hwf hsvc
    cases hv : areCredentialsValid now st.cache with
    | true =>
      rw [getCredentials_of_valid hv]
      exact ⟨hwf, fun v h => Or.inl h⟩
    | false =>
      cases htok : svc.tokenResp with
      | none =>
        have hres : getCredentials svc writeOk now st fs =
            (.error .tokenRequestFailed, st, fs, [.tokenReq]) := by
          simp [getCredentials, hv, htok]
        rw [hres]
        exact ⟨hwf, fun v h => Or.inl h⟩
      | some token =>
        cases hrole : svc.roleResp token with
        | none =>
          have hres : getCredentials svc writeOk now st fs =
              (.error .roleRequestFailed, st, fs,
                [.tokenReq, .roleReq token]) := by
            simp [getCredentials, getRoleName, hv, htok, hrole]
          rw [hres]
          exact ⟨hwf, fun v h => Or.inl h⟩
        | some roleName =>
          cases hcreds : svc.credsResp token roleName with
          | none =>
            have hres : getCredentials svc writeOk now st fs =
                (.error .credentialsRequestFailed, st, fs,
                  [.tokenReq, .roleReq token, .credsReq token roleName]) := by
              simp [getCredentials, getRoleName, getCredentialsStep,
                hv, htok, hrole, hcreds]
            rw [hres]
            exact ⟨hwf, fun v h => Or.inl h⟩
          | some credentials =>
            rw [@getCredentials_of_invalid_success svc writeOk now st fs
              token roleName credentials hv htok hrole hcreds]
            refine ⟨hsvc _ _ _ hcreds, ?_⟩
            intro v h
            cases writeOk with
            | true =>
              right
              have hsv : saveCache true credentials fs = .content credentials :=
                rfl
              rw [hsv] at h
              injection h with h'
              rw [← h']
              exact hsvc _ _ _ hcreds
            | false =>
              left
              simpa [saveCache] using h

/-- Witness for C9 amended: seeding from a file holding the complete
fixture record yields a well-formed in-memory record. -/
theorem C9_invariant_conditional_witness :
    recordWellFormed (initManager (.content credFixture)).cache = true :=
  C9_invariant_conditional.1 (.content credFixture)
    (fun v h => by injection h with h'; rw [← h']; decide)

/-- C10: a non-empty record whose `Expiration` parses to more than 900
seconds in the future is accepted by the validity check even when it
lacks `AccessKeyId`, `SecretAccessKey`, or `Token`; `get_credentials`
returns it without any handshake, and `get_environment_vars` then fails
with an unchecked key-lookup error rather than a typed credential
error. -/
theorem C10_unchecked_lookup (svc : MetadataService) (writeOk : Bool)
    (now : Int) (st : ManagerState) (fs : FileState) (s : String) (exp : Int)
    (hexp : st.cache.lookup "Expiration" = some (.str s))
    (hp : parseExpiration s = some exp)
    (hfut : now + 900 < exp)
    (hmiss : st.cache.lookup "AccessKeyId" = none ∨
             st.cache.lookup "SecretAccessKey" = none ∨
             st.cache.lookup "Token" = none) :
    getCredentials svc writeOk now st fs = (.ok st.cache, st, fs, []) ∧
    ∃ key, (getEnvironmentVars svc writeOk now st fs).1 =
      .error (.keyLookupError key) := by
  have htr := isTruthy_of_lookup_some hexp
  have hv : areCredentialsValid now st.cache = true := by
    simp [areCredentialsValid, htr, hexp, hp, hfut]
  have hmain := @getCredentials_of_valid svc writeOk now st fs hv
  refine ⟨hmain, ?_⟩
  unfold getEnvironmentVars
  rw [hmain]
  cases ha : st.cache.lookup "AccessKeyId" with
  | none => exact ⟨"AccessKeyId", by simp [ha]⟩
  | some a =>
    cases hs : st.cache.lookup "SecretAccessKey" with
    | none => exact ⟨"SecretAccessKey", by simp [ha, hs]⟩
    | some sv =>
      cases ht : st.cache.lookup "Token" with
      | none => exact ⟨"Token", by simp [ha, hs, ht]⟩
      | some t =>
        exfalso
        rcases hmiss with h | h | h <;> simp_all

/-- Witness for C10: a record holding only a far-future `Expiration` is
served from cache and then breaks the environment-variable lookup. -/
theorem C10_unchecked_lookup_witness :
    getCredentials svcDown true 0 ⟨credExpOnly⟩ .missing =
      (.ok credExpOnly, ⟨credExpOnly⟩, .missing, []) ∧
    ∃ key, (getEnvironmentVars svcDown true 0 ⟨credExpOnly⟩ .missing).1 =
      .error (.keyLookupError key) :=
  C10_unchecked_lookup svcDown true 0 ⟨credExpOnly⟩ .missing
    "2099-01-01T00:00:00Z" 4070908800 rfl (by decide) (by decide)
    (Or.inl rfl)
